import Mathlib

/-!
Verification of the date-range computation and filter-construction subsystem of
the PBIDateTimePicker visual.

JavaScript `Date` objects are modelled as local civil datetimes: a valid date
is a pair of an epoch day number (proleptic Gregorian, day 0 = 1970-01-01) and
a millisecond-of-day.  The timezone offset is assumed constant (no DST
transitions), so ordering of local civil fields coincides with ordering of
time values; the `toISOString` model below uses offset 0.  The ECMAScript
range clipping of time values (±8.64e15 ms) is not modelled; every date in the
claims is far inside that range.

`/` and `%` on `Int` are Euclidean (floor-like for positive divisors),
matching the floor divisions of the standard civil-calendar conversions.
-/

namespace Calendar

/-- Days from the start of a 400-year era to the start of year-of-era `yoe`
(years counted from March so the leap day falls at a year's end). -/
def yearDays (yoe : Int) : Int :=
  365 * yoe + yoe / 4 - yoe / 100

/-- Days from the start of a (March-based) year to the start of shifted month
`mp` (0 = March, ..., 11 = February). -/
def monthDays (mp : Int) : Int :=
  (153 * mp + 2) / 5

/-- Year-of-era containing day-of-era `doe`: first guess `doe / 365`, one
correction step, and a clamp for the era's final leap day. -/
def yoeOfDoe (doe : Int) : Int :=
  if yearDays (doe / 365) ≤ doe then
    (if doe / 365 ≤ 399 then doe / 365 else 399)
  else doe / 365 - 1

/-- Model of ECMAScript MakeDay restricted to month numbers 1..12: days since
1970-01-01 of the civil triple (y, m, d).  The day argument may lie outside
1..daysInMonth; it is normalized arithmetically exactly as JS `Date`
normalizes out-of-range day-of-month values. -/
def daysFromCivil (y m d : Int) : Int :=
  let yy := if m ≤ 2 then y - 1 else y
  let era := yy / 400
  let yoe := yy - era * 400
  let mp := if 3 ≤ m then m - 3 else m + 9
  era * 146097 + yearDays yoe + monthDays mp + d - 1 - 719468

/-- Civil triple of the day-of-era `doe` within era `era`. -/
def civilOfDoe (era doe : Int) : Int × Int × Int :=
  let yoe := yoeOfDoe doe
  let doy := doe - yearDays yoe
  let mp := (5 * doy + 2) / 153
  let d := doy - monthDays mp + 1
  let m := if mp < 10 then mp + 3 else mp - 9
  (if m ≤ 2 then yoe + era * 400 + 1 else yoe + era * 400, m, d)

/-- Inverse conversion: epoch day number to the canonical civil triple
(year, month 1..12, day 1..31). -/
def civilFromDays (z0 : Int) : Int × Int × Int :=
  civilOfDoe ((z0 + 719468) / 146097) (z0 + 719468 - (z0 + 719468) / 146097 * 146097)

theorem yoeOfDoe_correct (doe : Int) (h1 : 0 ≤ doe) (h2 : doe ≤ 146096) :
    0 ≤ yoeOfDoe doe ∧ yoeOfDoe doe ≤ 399 ∧ yearDays (yoeOfDoe doe) ≤ doe ∧
      doe - yearDays (yoeOfDoe doe) ≤ 365 := by
  unfold yoeOfDoe yearDays
  repeat' split
  all_goals omega

theorem monthSplit_correct (doy : Int) (h1 : 0 ≤ doy) (h2 : doy ≤ 365) :
    0 ≤ (5 * doy + 2) / 153 ∧ (5 * doy + 2) / 153 ≤ 11 ∧
      monthDays ((5 * doy + 2) / 153) ≤ doy ∧
      doy - monthDays ((5 * doy + 2) / 153) ≤ 30 := by
  unfold monthDays
  omega

theorem civilOfDoe_roundtrip (era doe : Int) (h1 : 0 ≤ doe) (h2 : doe ≤ 146096) :
    daysFromCivil (civilOfDoe era doe).1 (civilOfDoe era doe).2.1 (civilOfDoe era doe).2.2 =
      era * 146097 + doe - 719468 := by
  have hyoe := yoeOfDoe_correct doe h1 h2
  set yoe := yoeOfDoe doe with hy
  have hmp := monthSplit_correct (doe - yearDays yoe) (by omega) (by omega)
  set mp := (5 * (doe - yearDays yoe) + 2) / 153 with hm
  have h400 : (yoe + era * 400) / 400 = era := by
    rw [Int.add_mul_ediv_right _ _ (by norm_num : (400 : Int) ≠ 0),
      Int.ediv_eq_zero_of_lt hyoe.1 (by omega)]
    ring
  simp only [civilOfDoe, daysFromCivil, ← hy, ← hm]
  unfold yearDays at hyoe hmp ⊢
  unfold monthDays at hmp ⊢
  repeat' split
  all_goals (try simp only [Int.add_sub_cancel, Int.sub_add_cancel])
  all_goals (try rw [h400])
  all_goals (try simp only [Int.add_sub_cancel, Int.sub_add_cancel])
  all_goals omega

theorem civilOfDoe_month_bounds (era doe : Int) (h1 : 0 ≤ doe) (h2 : doe ≤ 146096) :
    1 ≤ (civilOfDoe era doe).2.1 ∧ (civilOfDoe era doe).2.1 ≤ 12 := by
  have hyoe := yoeOfDoe_correct doe h1 h2
  set yoe := yoeOfDoe doe with hy
  have hmp := monthSplit_correct (doe - yearDays yoe) (by omega) (by omega)
  set mp := (5 * (doe - yearDays yoe) + 2) / 153 with hm
  simp only [civilOfDoe, ← hy, ← hm]
  repeat' split
  all_goals omega

theorem civilOfDoe_day_bounds (era doe : Int) (h1 : 0 ≤ doe) (h2 : doe ≤ 146096) :
    1 ≤ (civilOfDoe era doe).2.2 ∧ (civilOfDoe era doe).2.2 ≤ 31 := by
  have hyoe := yoeOfDoe_correct doe h1 h2
  set yoe := yoeOfDoe doe with hy
  have hmp := monthSplit_correct (doe - yearDays yoe) (by omega) (by omega)
  set mp := (5 * (doe - yearDays yoe) + 2) / 153 with hm
  simp only [civilOfDoe, ← hy, ← hm]
  omega

theorem daysFromCivil_civilFromDays (z : Int) :
    daysFromCivil (civilFromDays z).1 (civilFromDays z).2.1 (civilFromDays z).2.2 = z := by
  unfold civilFromDays
  rw [civilOfDoe_roundtrip ((z + 719468) / 146097)
    (z + 719468 - (z + 719468) / 146097 * 146097) (by omega) (by omega)]
  omega

theorem civilFromDays_month_bounds (z : Int) :
    1 ≤ (civilFromDays z).2.1 ∧ (civilFromDays z).2.1 ≤ 12 := by
  unfold civilFromDays
  exact civilOfDoe_month_bounds _ _ (by omega) (by omega)

theorem civilFromDays_day_bounds (z : Int) :
    1 ≤ (civilFromDays z).2.2 ∧ (civilFromDays z).2.2 ≤ 31 := by
  unfold civilFromDays
  exact civilOfDoe_day_bounds _ _ (by omega) (by omega)

/-- Shifting the day argument shifts the resulting day number equally
(day-of-month normalization is purely arithmetic). -/
theorem daysFromCivil_day_shift (y m d k : Int) :
    daysFromCivil y m (d + k) = daysFromCivil y m d + k := by
  simp only [daysFromCivil]
  split <;> omega

end Calendar

/-! ## Model of JavaScript `Date` values and the built-ins the source uses -/

/-- A JS `Date`: either an Invalid Date (NaN time value) or a local civil
instant given by epoch day number and millisecond-of-day. -/
inductive JsDate
  | invalid
  | valid (epochDay : Int) (msOfDay : Int)
deriving DecidableEq

namespace JsDate

/-- The time value in milliseconds since the epoch; `none` for Invalid Date. -/
def timeValue : JsDate → Option Int
  | .invalid => none
  | .valid e ms => some (e * 86400000 + ms)

/-- JS `a < b` on two dates: comparison of time values, false when either date
is invalid (NaN comparisons are false). -/
def jsLtB (a b : JsDate) : Bool :=
  match a.timeValue, b.timeValue with
  | some x, some y => decide (x < y)
  | _, _ => false

/-- JS `a <= b` on two dates: comparison of time values, false when either
date is invalid (NaN comparisons are false). -/
def jsLeB (a b : JsDate) : Bool :=
  match a.timeValue, b.timeValue with
  | some x, some y => decide (x ≤ y)
  | _, _ => false

/-- `d.setHours(h, m, s, ms)` with in-range arguments (the source only passes
constants in range): replaces the time-of-day, keeps the civil day. -/
def setHours (d : JsDate) (h mi s ms : Int) : JsDate :=
  match d with
  | .invalid => .invalid
  | .valid e _ => .valid e (h * 3600000 + mi * 60000 + s * 1000 + ms)

/-- JS `getFullYear()` (local); the NaN result on an Invalid Date is not
modelled (the source only reads fields of dates it has checked). -/
def getFullYear : JsDate → Int
  | .invalid => 0
  | .valid e _ => (Calendar.civilFromDays e).1

/-- JS `getMonth()` (local, 0-based). -/
def getMonth : JsDate → Int
  | .invalid => 0
  | .valid e _ => (Calendar.civilFromDays e).2.1 - 1

/-- JS `getDate()` (local day-of-month, 1-based). -/
def getDate : JsDate → Int
  | .invalid => 0
  | .valid e _ => (Calendar.civilFromDays e).2.2

/-- `d.setDate(n)`: move to day `n` of d's current month, normalizing
out-of-range values arithmetically (ES MakeDay). -/
def setDate (d : JsDate) (n : Int) : JsDate :=
  match d with
  | .invalid => .invalid
  | .valid e ms =>
      .valid (Calendar.daysFromCivil (Calendar.civilFromDays e).1
        (Calendar.civilFromDays e).2.1 n) ms

/-- `new Date(year, monthIndex, day)`: ES MakeDay (month overflow moves the
year, day overflow is arithmetic) plus the 0..99 → 1900+year rule of the Date
constructor; the time-of-day is midnight. -/
def jsNewDate (y monthIndex day : Int) : JsDate :=
  let yr := if 0 ≤ y ∧ y ≤ 99 then y + 1900 else y
  .valid (Calendar.daysFromCivil (yr + monthIndex / 12) (monthIndex % 12 + 1) day) 0

theorem setDate_getDate_sub (e ms n : Int) :
    (JsDate.valid e ms).setDate ((JsDate.valid e ms).getDate - n) = .valid (e - n) ms := by
  simp only [setDate, getDate]
  rw [show (Calendar.civilFromDays e).2.2 - n = (Calendar.civilFromDays e).2.2 + (-n) by ring,
    Calendar.daysFromCivil_day_shift, Calendar.daysFromCivil_civilFromDays]
  rw [show e + -n = e - n by ring]

end JsDate

/-! ## part_005 — DateRangeCalculator (src/services/DateRangeCalculator.ts) -/

/-- The `DateRangeType` enumeration from the settings module. -/
inductive DateRangeType
  | last7Days
  | last30Days
  | last90Days
  | custom
deriving DecidableEq

/-- The `IDateRange` shape used by the DateRangeCalculator variant. -/
structure IDateRange where
  startDate : JsDate
  endDate : JsDate
  type : DateRangeType
deriving DecidableEq

namespace DateRangeCalculator

/-- `subtractDays`: copy the date and `setDate(getDate() - days)`. -/
def subtractDays (date : JsDate) (days : Int) : JsDate :=
  date.setDate (date.getDate - days)

/-- `calculateDateRange(rangeType)`; `new Date()` is passed in as `now`. -/
def calculateDateRange (rangeType : DateRangeType) (now : JsDate) : IDateRange :=
  let today := now.setHours 23 59 59 999
  let endDate := today
  let startDate :=
    match rangeType with
    | .last7Days => subtractDays today 7
    | .last30Days => subtractDays today 30
    | .last90Days => subtractDays today 90
    | .custom => today
  { startDate := startDate.setHours 0 0 0 0, endDate := endDate, type := rangeType }

/-- `createCustomRange(startDate, endDate)`. -/
def createCustomRange (startDate endDate : JsDate) : IDateRange :=
  { startDate := startDate.setHours 0 0 0 0
    endDate := endDate.setHours 23 59 59 999
    type := .custom }

/-- `isValidDateRange(dateRange)`.  The null checks on the range object and
its fields can only fire for JS `null`/`undefined` (an Invalid Date object is
truthy and flows to the comparison, which is false for it); the typed
embedding represents a null range as `none` and the comparison is JS `<=` on
time values. -/
def isValidDateRange : Option IDateRange → Bool
  | none => false
  | some r => r.startDate.jsLeB r.endDate

end DateRangeCalculator

/-! ## part_009 — DateUtils.getDateRange of the current visual -/

/-- The `PredefinedRange` enumeration (numeric values 7/30/90 and 0). -/
inductive PredefinedRange
  | latest7Days
  | latest30Days
  | latest90Days
  | custom
deriving DecidableEq

/-- The numeric value of a `PredefinedRange` member. -/
def PredefinedRange.days : PredefinedRange → Int
  | .latest7Days => 7
  | .latest30Days => 30
  | .latest90Days => 90
  | .custom => 0

/-- The `IDateRange` shape of the current visual (no kind tag). -/
structure DRange where
  startDate : JsDate
  endDate : JsDate
deriving DecidableEq

namespace DateUtils

/-- `getDateRange(range, maxDate?)`; `new Date()` is passed in as `now`.
`maxDate || new Date()` keeps any supplied `Date` object (even an invalid
one is truthy), so `none` models an absent argument. -/
def getDateRange (range : PredefinedRange) (maxDate : Option JsDate) (now : JsDate) : DRange :=
  let endDate := maxDate.getD now
  let startDate :=
    if range ≠ PredefinedRange.custom then endDate.setDate (endDate.getDate - range.days)
    else endDate
  { startDate := startDate, endDate := endDate }

/-- `isValidDateRange(startDate, endDate)` of the current visual. -/
def isValidDateRange (startDate endDate : JsDate) : Bool :=
  startDate.jsLeB endDate

end DateUtils

/-! ## Claims C1 and C2 -/

theorem calculateDateRange_preset (e ms : Int) (t : DateRangeType) (n : Int)
    (h : (t = .last7Days ∧ n = 7) ∨ (t = .last30Days ∧ n = 30) ∨ (t = .last90Days ∧ n = 90)) :
    DateRangeCalculator.calculateDateRange t (.valid e ms) =
      { startDate := .valid (e - n) 0, endDate := .valid e 86399999, type := t } := by
  rcases h with ⟨ht, hn⟩ | ⟨ht, hn⟩ | ⟨ht, hn⟩ <;> subst ht <;> subst hn <;>
    simp only [DateRangeCalculator.calculateDateRange, DateRangeCalculator.subtractDays,
      JsDate.setHours, JsDate.setDate_getDate_sub] <;>
    norm_num

/-- C1 (amended): for each preset N ∈ {7,30,90}, `calculateDateRange` — which
always anchors at the current instant — returns endDate = the anchor's day end
(23:59:59.999) and startDate = the start (00:00:00.000) of the day N days
before the anchor's day; in particular anchored anywhere on 2024-12-31 the
Last7Days preset yields [2024-12-24T00:00:00.000, 2024-12-31T23:59:59.999].
(`DateUtils.getDateRange`, the variant that takes an explicit anchor, performs
no such normalization — see the counterexample.) -/
theorem c1_amended_theorem :
    (∀ e ms : Int,
      DateRangeCalculator.calculateDateRange .last7Days (.valid e ms) =
        { startDate := .valid (e - 7) 0, endDate := .valid e 86399999, type := .last7Days } ∧
      DateRangeCalculator.calculateDateRange .last30Days (.valid e ms) =
        { startDate := .valid (e - 30) 0, endDate := .valid e 86399999, type := .last30Days } ∧
      DateRangeCalculator.calculateDateRange .last90Days (.valid e ms) =
        { startDate := .valid (e - 90) 0, endDate := .valid e 86399999, type := .last90Days }) ∧
    DateRangeCalculator.calculateDateRange .last7Days
        (.valid (Calendar.daysFromCivil 2024 12 31) 43200000) =
      { startDate := .valid (Calendar.daysFromCivil 2024 12 24) 0,
        endDate := .valid (Calendar.daysFromCivil 2024 12 31) 86399999,
        type := .last7Days } := by
  constructor
  · intro e ms
    exact ⟨calculateDateRange_preset e ms _ 7 (by simp),
      calculateDateRange_preset e ms _ 30 (by simp),
      calculateDateRange_preset e ms _ 90 (by simp)⟩
  · rw [calculateDateRange_preset _ _ _ 7 (by simp)]
    decide

/-- C1 (counterexample): `DateUtils.getDateRange` — the preset computation
that takes an anchor date — does not normalize to day boundaries: anchored at
2024-12-31T12:00 its endDate keeps the anchor's noon time-of-day instead of
being the anchor's day end, and its startDate is not the day start either. -/
theorem c1_counterexample :
    (DateUtils.getDateRange .latest7Days
        (some (.valid (Calendar.daysFromCivil 2024 12 31) 43200000)) (.valid 0 0)).endDate =
      .valid (Calendar.daysFromCivil 2024 12 31) 43200000 ∧
    (DateUtils.getDateRange .latest7Days
        (some (.valid (Calendar.daysFromCivil 2024 12 31) 43200000)) (.valid 0 0)).startDate =
      .valid (Calendar.daysFromCivil 2024 12 24) 43200000 ∧
    JsDate.valid (Calendar.daysFromCivil 2024 12 31) 43200000 ≠
      (JsDate.valid (Calendar.daysFromCivil 2024 12 31) 43200000).setHours 23 59 59 999 ∧
    JsDate.valid (Calendar.daysFromCivil 2024 12 24) 43200000 ≠
      (JsDate.valid (Calendar.daysFromCivil 2024 12 24) 43200000).setHours 0 0 0 0 := by
  decide

/-- C2 (counterexample): validating a custom range is not equivalent to
`a <= b`: for a = 1970-01-01T14:00 and b = 1970-01-01T01:00 we have `a <= b`
false (same day, reversed times) yet `validate(buildCustom(a, b))` is true,
because both bounds are first normalized to day boundaries. -/
theorem c2_counterexample :
    DateRangeCalculator.isValidDateRange
        (some (DateRangeCalculator.createCustomRange (.valid 0 50400000) (.valid 0 3600000))) =
      true ∧
    JsDate.jsLeB (.valid 0 50400000) (.valid 0 3600000) = false := by
  decide

/-- C2 (amended): `validate(buildCustom(a,b))` equals the day-level comparison
`day(a) <= day(b)` (equivalent to `a <= b` only when a and b lie on different
days or a is a day start); `buildCustom` never reorders: its startDate is
always a's day start and its endDate always b's day end, so the reversed pair
(2025-03-10, 2025-03-01) of Scenario B fails validation un-swapped. -/
theorem c2_amended_theorem :
    (∀ ea ma eb mb : Int,
      DateRangeCalculator.isValidDateRange
          (some (DateRangeCalculator.createCustomRange (.valid ea ma) (.valid eb mb))) =
        decide (ea ≤ eb)) ∧
    (∀ a b : JsDate,
      (DateRangeCalculator.createCustomRange a b).startDate = a.setHours 0 0 0 0 ∧
      (DateRangeCalculator.createCustomRange a b).endDate = b.setHours 23 59 59 999) ∧
    DateRangeCalculator.isValidDateRange
        (some (DateRangeCalculator.createCustomRange
          (.valid (Calendar.daysFromCivil 2025 3 10) 0)
          (.valid (Calendar.daysFromCivil 2025 3 1) 0))) = false ∧
    (DateRangeCalculator.createCustomRange
        (.valid (Calendar.daysFromCivil 2025 3 10) 0)
        (.valid (Calendar.daysFromCivil 2025 3 1) 0)).startDate =
      .valid (Calendar.daysFromCivil 2025 3 10) 0 := by
  refine ⟨?_, fun a b => ⟨rfl, rfl⟩, by decide, by decide⟩
  intro ea ma eb mb
  simp only [DateRangeCalculator.createCustomRange, DateRangeCalculator.isValidDateRange,
    JsDate.setHours, JsDate.jsLeB, JsDate.timeValue]
  rw [decide_eq_decide]
  omega

/-! ## Model of JS strings and the string built-ins the source uses -/

/-- JS strings are modelled as lists of characters. -/
abbrev JsStr := List Char

/-- ASCII digit test (the `\d` character class on the inputs involved). -/
def isDig (c : Char) : Bool :=
  decide (48 ≤ c.toNat ∧ c.toNat ≤ 57)

/-- Numeric value of an ASCII digit character. -/
def digitVal (c : Char) : Nat :=
  c.toNat - 48

/-- Numeric value of a digit sequence (the unary `+` applied to a match). -/
def digitsVal (l : JsStr) : Nat :=
  l.foldl (fun a c => a * 10 + digitVal c) 0

/-- Fuel-driven digit rendering (structural recursion so that concrete
instances evaluate in the kernel). -/
def natToCharsF (fuel n : Nat) : List Char :=
  match fuel with
  | 0 => []
  | fuel + 1 => if n < 10 then [Nat.digitChar n] else natToCharsF fuel (n / 10) ++ [Nat.digitChar (n % 10)]

/-- Decimal rendering of a natural number (JS number-to-string for the
non-negative integers involved). -/
def natToChars (n : Nat) : List Char :=
  natToCharsF (n + 1) n

/-- Decimal rendering of an integer (JS number-to-string for integers). -/
def intToChars (i : Int) : List Char :=
  if i < 0 then '-' :: natToChars i.natAbs else natToChars i.toNat

/-- JS `String.prototype.padStart(n, c)` with a one-character pad string. -/
def padStart (s : JsStr) (n : Nat) (c : Char) : JsStr :=
  List.replicate (n - s.length) c ++ s

/-- The whitespace class that JS `trim` strips, restricted to the characters
that can occur in the inputs involved. -/
def isJsSpace (c : Char) : Bool :=
  decide (c = ' ' ∨ c = '\t' ∨ c = '\n' ∨ c = '\r')

/-- JS `String.prototype.trim`. -/
def trimChars (s : JsStr) : JsStr :=
  ((s.dropWhile isJsSpace).reverse.dropWhile isJsSpace).reverse

/-- A JS value as it can reach the date utilities: `undefined`, `null`, a
string, or a `Date` object. -/
inductive JsValue
  | undef
  | null
  | str (s : JsStr)
  | date (d : JsDate)
deriving DecidableEq

/-- JS truthiness of such a value (the empty string is falsy; any `Date`
object, even an Invalid Date, is truthy). -/
def JsValue.truthy : JsValue → Bool
  | .undef => false
  | .null => false
  | .str s => !s.isEmpty
  | .date _ => true

/-- The regex `^(\d{4})-(\d{2})-(\d{2})` (a prefix match): returns the three
numeric groups. -/
def matchIsoYMD : JsStr → Option (Nat × Nat × Nat)
  | c1 :: c2 :: c3 :: c4 :: '-' :: c5 :: c6 :: '-' :: c7 :: c8 :: _ =>
      if isDig c1 && isDig c2 && isDig c3 && isDig c4 && isDig c5 && isDig c6 &&
          isDig c7 && isDig c8 then
        some (digitVal c1 * 1000 + digitVal c2 * 100 + digitVal c3 * 10 + digitVal c4,
          digitVal c5 * 10 + digitVal c6, digitVal c7 * 10 + digitVal c8)
      else none
  | _ => none

/-- Split a string into its leading digit run and the rest. -/
def digitSpan (s : JsStr) : JsStr × JsStr :=
  (s.takeWhile isDig, s.dropWhile isDig)

/-- The anchored regex `^(\d{1,2})\/(\d{1,2})\/(\d{4})$`: returns the three
numeric groups. -/
def matchSlashDMY (s : JsStr) : Option (Nat × Nat × Nat) :=
  let p1 := digitSpan s
  if p1.1.length < 1 || 2 < p1.1.length then none
  else
    match p1.2 with
    | '/' :: r2 =>
        let p2 := digitSpan r2
        if p2.1.length < 1 || 2 < p2.1.length then none
        else
          match p2.2 with
          | '/' :: r4 =>
              let p3 := digitSpan r4
              if p3.1.length = 4 && p3.2.isEmpty then
                some (digitsVal p1.1, digitsVal p2.1, digitsVal p3.1)
              else none
          | _ => none
    | _ => none

/-! ## part_009 — DateUtils.formatDate / parseDate / findMinMaxDates -/

namespace DateUtils

/-- `formatDate(date)`: `""` for a null/undefined argument, otherwise the
local `YYYY-MM-DD` rendering with zero-padded month and day (an Invalid Date
renders its NaN fields, giving `NaN-NaN-NaN`). -/
def formatDate (date : Option JsDate) : JsStr :=
  match date with
  | none => []
  | some JsDate.invalid => ("NaN-NaN-NaN").toList
  | some (JsDate.valid e ms) =>
      intToChars (JsDate.valid e ms).getFullYear ++
        '-' :: (padStart (intToChars ((JsDate.valid e ms).getMonth + 1)) 2 '0' ++
          '-' :: padStart (intToChars (JsDate.valid e ms).getDate) 2 '0')

/-- `parseDate(input)`.  The final fallback `new Date(s)` is reached only for
strings matching neither pattern; ECMAScript leaves the result
implementation-specific for strings outside the Date Time String Format, so
the host string parser is an explicit parameter `hostParse`. -/
def parseDate (hostParse : JsStr → JsDate) (input : JsValue) : JsDate :=
  if !input.truthy then .invalid
  else
    match input with
    | .undef => .invalid
    | .null => .invalid
    | .date JsDate.invalid => .invalid
    | .date (JsDate.valid e ms) =>
        JsDate.jsNewDate (JsDate.valid e ms).getFullYear (JsDate.valid e ms).getMonth
          (JsDate.valid e ms).getDate
    | .str s0 =>
        match matchIsoYMD (trimChars s0) with
        | some (y, mo, d) => JsDate.jsNewDate (y : Int) ((mo : Int) - 1) (d : Int)
        | none =>
            match matchSlashDMY (trimChars s0) with
            | some (a, b, y) =>
                JsDate.jsNewDate (y : Int)
                  ((if 12 < a then (b : Int) else (a : Int)) - 1)
                  (if 12 < a then (a : Int) else (b : Int))
            | none =>
                match hostParse (trimChars s0) with
                | JsDate.invalid => .invalid
                | JsDate.valid e ms =>
                    JsDate.jsNewDate (JsDate.valid e ms).getFullYear
                      (JsDate.valid e ms).getMonth (JsDate.valid e ms).getDate

/-- One step of the min/max scan of `findMinMaxDates`: parse the value, skip
it when invalid, otherwise update the running minimum and maximum. -/
def mmStep (hostParse : JsStr → JsDate) (st : Option JsDate × Option JsDate)
    (v : JsValue) : Option JsDate × Option JsDate :=
  match parseDate hostParse v with
  | JsDate.invalid => st
  | JsDate.valid e ms =>
      (match st.1 with
       | none => some (JsDate.valid e ms)
       | some mn => if (JsDate.valid e ms).jsLtB mn then some (JsDate.valid e ms) else some mn,
       match st.2 with
       | none => some (JsDate.valid e ms)
       | some mx => if mx.jsLtB (JsDate.valid e ms) then some (JsDate.valid e ms) else some mx)

/-- `findMinMaxDates(arr)` of the current visual: early return for an empty
array, otherwise a scan with `parseDate` skipping invalid entries. -/
def findMinMaxDates (hostParse : JsStr → JsDate) (arr : List JsValue) :
    Option JsDate × Option JsDate :=
  if arr.isEmpty then (none, none)
  else arr.foldl (mmStep hostParse) (none, none)

end DateUtils

/-! ## Digit and trim lemmas -/

theorem digitChar_props : ∀ k : Nat, k < 10 →
    isDig (Nat.digitChar k) = true ∧ digitVal (Nat.digitChar k) = k ∧
      isJsSpace (Nat.digitChar k) = false := by
  decide

theorem natToCharsF_fuel : ∀ f1 : Nat, ∀ f2 n : Nat, n < f1 → n < f2 →
    natToCharsF f1 n = natToCharsF f2 n := by
  intro f1
  induction f1 with
  | zero => omega
  | succ f ih =>
      intro f2 n h1 h2
      cases f2 with
      | zero => omega
      | succ g =>
          simp only [natToCharsF]
          by_cases h : n < 10
          · simp [h]
          · simp only [h, if_false]
            rw [ih g (n / 10) (by omega) (by omega)]

theorem natToChars_lt10 (n : Nat) (h : n < 10) : natToChars n = [Nat.digitChar n] := by
  rw [natToChars, natToCharsF]
  simp [h]

theorem natToChars_ge10 (n : Nat) (h : 10 ≤ n) :
    natToChars n = natToChars (n / 10) ++ [Nat.digitChar (n % 10)] := by
  rw [natToChars, natToCharsF]
  simp only [Nat.not_lt.mpr h, if_false]
  rw [natToCharsF_fuel n (n / 10 + 1) (n / 10) (by omega) (by omega)]
  rfl

theorem intToChars_four (y : Int) (h1 : 1000 ≤ y) (h2 : y ≤ 9999) :
    intToChars y = [Nat.digitChar (y.toNat / 10 / 10 / 10), Nat.digitChar (y.toNat / 10 / 10 % 10),
      Nat.digitChar (y.toNat / 10 % 10), Nat.digitChar (y.toNat % 10)] := by
  rw [intToChars, if_neg (by omega)]
  rw [natToChars_ge10 _ (by omega), natToChars_ge10 _ (by omega),
    natToChars_ge10 _ (by omega), natToChars_lt10 _ (by omega)]
  simp

theorem padStart_intToChars_two (m : Int) (h1 : 1 ≤ m) (h2 : m ≤ 99) :
    padStart (intToChars m) 2 '0' =
      [Nat.digitChar (m.toNat / 10), Nat.digitChar (m.toNat % 10)] := by
  rw [intToChars, if_neg (by omega)]
  by_cases h : m.toNat < 10
  · rw [natToChars_lt10 _ h, show m.toNat / 10 = 0 by omega, show m.toNat % 10 = m.toNat by omega]
    rfl
  · rw [natToChars_ge10 _ (by omega), natToChars_lt10 _ (by omega)]
    rfl

theorem dropWhile_head_false (p : Char → Bool) (s : JsStr) (h : ∀ c ∈ s, p c = false) :
    s.dropWhile p = s := by
  cases s with
  | nil => rfl
  | cons a l => simp [List.dropWhile_cons, h a (by simp)]

theorem trimChars_eq_self (s : JsStr) (h : ∀ c ∈ s, isJsSpace c = false) :
    trimChars s = s := by
  unfold trimChars
  rw [dropWhile_head_false _ s h,
    dropWhile_head_false _ s.reverse (fun c hc => h c (List.mem_reverse.mp hc))]
  exact List.reverse_reverse s

theorem isDig_digitChar (k : Nat) (h : k < 10) : isDig (Nat.digitChar k) = true :=
  (digitChar_props k h).1

theorem digitVal_digitChar (k : Nat) (h : k < 10) : digitVal (Nat.digitChar k) = k :=
  (digitChar_props k h).2.1

theorem isJsSpace_digitChar (k : Nat) (h : k < 10) : isJsSpace (Nat.digitChar k) = false :=
  (digitChar_props k h).2.2

theorem parseDate_formatDate (hostParse : JsStr → JsDate) (e ms : Int)
    (h1 : 1000 ≤ (Calendar.civilFromDays e).1) (h2 : (Calendar.civilFromDays e).1 ≤ 9999) :
    DateUtils.parseDate hostParse (.str (DateUtils.formatDate (some (.valid e ms)))) =
      .valid e 0 := by
  have hmb := Calendar.civilFromDays_month_bounds e
  have hdb := Calendar.civilFromDays_day_bounds e
  have hrt := Calendar.daysFromCivil_civilFromDays e
  rcases htr : Calendar.civilFromDays e with ⟨y, m, d⟩
  rw [htr] at hmb hdb hrt h1 h2
  replace hmb : 1 ≤ m ∧ m ≤ 12 := hmb
  replace hdb : 1 ≤ d ∧ d ≤ 31 := hdb
  replace h1 : 1000 ≤ y := h1
  replace h2 : y ≤ 9999 := h2
  replace hrt : Calendar.daysFromCivil y m d = e := hrt
  obtain ⟨Y, rfl⟩ : ∃ Y : Nat, y = (Y : Int) := ⟨y.toNat, by omega⟩
  obtain ⟨M, rfl⟩ : ∃ M : Nat, m = (M : Int) := ⟨m.toNat, by omega⟩
  obtain ⟨D, rfl⟩ : ∃ D : Nat, d = (D : Int) := ⟨d.toNat, by omega⟩
  have e1 : Y / 10 / 10 / 10 < 10 := by omega
  have e2 : Y / 10 / 10 % 10 < 10 := by omega
  have e3 : Y / 10 % 10 < 10 := by omega
  have e4 : Y % 10 < 10 := by omega
  have e5 : M / 10 < 10 := by omega
  have e6 : M % 10 < 10 := by omega
  have e7 : D / 10 < 10 := by omega
  have e8 : D % 10 < 10 := by omega
  have hfmt : DateUtils.formatDate (some (.valid e ms)) =
      Nat.digitChar (Y / 10 / 10 / 10) :: Nat.digitChar (Y / 10 / 10 % 10) ::
        Nat.digitChar (Y / 10 % 10) :: Nat.digitChar (Y % 10) :: '-' ::
        Nat.digitChar (M / 10) :: Nat.digitChar (M % 10) :: '-' ::
        Nat.digitChar (D / 10) :: Nat.digitChar (D % 10) :: [] := by
    simp only [DateUtils.formatDate, JsDate.getFullYear, JsDate.getMonth, JsDate.getDate, htr]
    rw [show (M : Int) - 1 + 1 = (M : Int) by ring]
    rw [intToChars_four _ h1 h2, padStart_intToChars_two _ (by omega) (by omega),
      padStart_intToChars_two _ (by omega) (by omega)]
    simp [Int.toNat_natCast]
  rw [hfmt]
  have htrim : trimChars (Nat.digitChar (Y / 10 / 10 / 10) ::
      Nat.digitChar (Y / 10 / 10 % 10) :: Nat.digitChar (Y / 10 % 10) ::
      Nat.digitChar (Y % 10) :: '-' :: Nat.digitChar (M / 10) ::
      Nat.digitChar (M % 10) :: '-' :: Nat.digitChar (D / 10) ::
      Nat.digitChar (D % 10) :: []) = Nat.digitChar (Y / 10 / 10 / 10) ::
      Nat.digitChar (Y / 10 / 10 % 10) :: Nat.digitChar (Y / 10 % 10) ::
      Nat.digitChar (Y % 10) :: '-' :: Nat.digitChar (M / 10) ::
      Nat.digitChar (M % 10) :: '-' :: Nat.digitChar (D / 10) ::
      Nat.digitChar (D % 10) :: [] := by
    refine trimChars_eq_self _ ?_
    intro c hc
    simp only [List.mem_cons, List.not_mem_nil, or_false] at hc
    rcases hc with rfl | rfl | rfl | rfl | rfl | rfl | rfl | rfl | rfl | rfl
    · exact isJsSpace_digitChar _ e1
    · exact isJsSpace_digitChar _ e2
    · exact isJsSpace_digitChar _ e3
    · exact isJsSpace_digitChar _ e4
    · decide
    · exact isJsSpace_digitChar _ e5
    · exact isJsSpace_digitChar _ e6
    · decide
    · exact isJsSpace_digitChar _ e7
    · exact isJsSpace_digitChar _ e8
  have hY : ((Y / 10 / 10 / 10 * 1000 + Y / 10 / 10 % 10 * 100 +
      Y / 10 % 10 * 10 + Y % 10 : Nat) : Int) = (Y : Int) := Nat.cast_inj.mpr (by omega)
  have hM : ((M / 10 * 10 + M % 10 : Nat) : Int) = (M : Int) := Nat.cast_inj.mpr (by omega)
  have hD : ((D / 10 * 10 + D % 10 : Nat) : Int) = (D : Int) := Nat.cast_inj.mpr (by omega)
  simp only [DateUtils.parseDate, JsValue.truthy, htrim, matchIsoYMD,
    isDig_digitChar _ e1, isDig_digitChar _ e2, isDig_digitChar _ e3, isDig_digitChar _ e4,
    isDig_digitChar _ e5, isDig_digitChar _ e6, isDig_digitChar _ e7, isDig_digitChar _ e8,
    digitVal_digitChar _ e1, digitVal_digitChar _ e2, digitVal_digitChar _ e3,
    digitVal_digitChar _ e4, digitVal_digitChar _ e5, digitVal_digitChar _ e6,
    digitVal_digitChar _ e7, digitVal_digitChar _ e8,
    List.isEmpty_cons, Bool.not_false, Bool.and_self, Bool.true_and, Bool.and_true,
    if_true, if_false, Bool.not_true]
  simp only [hY, hM, hD]
  simp only [JsDate.jsNewDate]
  rw [if_neg (show ¬(0 ≤ (Y : Int) ∧ (Y : Int) ≤ 99) by omega)]
  rw [show ((M : Int) - 1) / 12 = 0 by omega, show ((M : Int) - 1) % 12 + 1 = (M : Int) by omega,
    add_zero]
  rw [hrt]
  rfl

theorem parseDate_midnight (hostParse : JsStr → JsDate) (v : JsValue) :
    DateUtils.parseDate hostParse v = .invalid ∨
      ∃ e, DateUtils.parseDate hostParse v = .valid e 0 := by
  cases v with
  | undef => exact Or.inl rfl
  | null => exact Or.inl rfl
  | date d =>
      cases d with
      | invalid => exact Or.inl rfl
      | valid e ms => exact Or.inr ⟨_, rfl⟩
  | str s =>
      simp only [DateUtils.parseDate]
      split
      · exact Or.inl rfl
      · split
        · exact Or.inr ⟨_, rfl⟩
        · split
          · exact Or.inr ⟨_, rfl⟩
          · split
            · exact Or.inl rfl
            · exact Or.inr ⟨_, rfl⟩

/-- C9 (amended): `parseDate ∘ formatDate` returns the same local calendar day
at exactly local midnight for every valid date whose year has four digits
(1000..9999), for any host fallback parser; `parseDate` always discards the
time-of-day of its input (its result is invalid or at 00:00:00.000); and it
returns an Invalid Date rather than throwing for empty input.  Outside the
four-digit-year range `formatDate` does not produce a `YYYY-`-prefixed string,
so the result is decided by the ECMAScript implementation-specific string
fallback — see the counterexample. -/
theorem c9_amended_theorem :
    (∀ (hostParse : JsStr → JsDate) (e ms : Int),
      1000 ≤ (Calendar.civilFromDays e).1 → (Calendar.civilFromDays e).1 ≤ 9999 →
        DateUtils.parseDate hostParse (.str (DateUtils.formatDate (some (.valid e ms)))) =
          .valid e 0) ∧
    (∀ (hostParse : JsStr → JsDate) (v : JsValue),
      DateUtils.parseDate hostParse v = .invalid ∨
        ∃ e, DateUtils.parseDate hostParse v = .valid e 0) ∧
    (∀ hostParse : JsStr → JsDate, DateUtils.parseDate hostParse (.str []) = .invalid) :=
  ⟨parseDate_formatDate, parseDate_midnight, fun _ => rfl⟩

/-- C9 (witness): the round trip at 2024-03-15 with an arbitrary time-of-day,
under a host fallback parser that accepts nothing. -/
theorem c9_witness :
    1000 ≤ (Calendar.civilFromDays (Calendar.daysFromCivil 2024 3 15)).1 ∧
    (Calendar.civilFromDays (Calendar.daysFromCivil 2024 3 15)).1 ≤ 9999 ∧
    DateUtils.parseDate (fun _ => JsDate.invalid)
        (.str (DateUtils.formatDate
          (some (.valid (Calendar.daysFromCivil 2024 3 15) 43200000)))) =
      .valid (Calendar.daysFromCivil 2024 3 15) 0 :=
  ⟨by decide, by decide,
    c9_amended_theorem.1 (fun _ => JsDate.invalid) _ _ (by decide) (by decide)⟩

/-- C9 (counterexample): for the valid date 0999-01-02 (year below 1000) the
rendered string `999-01-02` matches neither regex of `parseDate` and falls to
the ECMAScript `new Date(string)` fallback, which is implementation-specific
for such nonconforming strings and may reject them; under a spec-conforming
host that rejects them, the round trip returns an Invalid Date rather than a
date with the same calendar day. -/
theorem c9_counterexample :
    DateUtils.parseDate (fun _ => JsDate.invalid)
        (.str (DateUtils.formatDate (some (.valid (Calendar.daysFromCivil 999 1 2) 0)))) =
      JsDate.invalid ∧
    JsDate.invalid ≠ JsDate.valid (Calendar.daysFromCivil 999 1 2) 0 := by
  decide

/-! ## Claim C10 — findMinMaxDates -/

/-- Invariant of the min/max scan: min and max are absent together, each
stored bound is the parse of some already-processed element and not invalid,
and min is at most max. -/
def MMInv (hostParse : JsStr → JsDate) (S : List JsValue)
    (st : Option JsDate × Option JsDate) : Prop :=
  (st.1 = none ↔ st.2 = none) ∧
  (∀ a, st.1 = some a →
    (∃ v ∈ S, DateUtils.parseDate hostParse v = a) ∧ a ≠ JsDate.invalid) ∧
  (∀ b, st.2 = some b →
    (∃ v ∈ S, DateUtils.parseDate hostParse v = b) ∧ b ≠ JsDate.invalid) ∧
  (∀ a b, st.1 = some a → st.2 = some b → a.jsLeB b = true)

theorem jsLeB_valid (a b c d : Int) :
    (JsDate.valid a b).jsLeB (JsDate.valid c d) = true ↔
      a * 86400000 + b ≤ c * 86400000 + d := by
  simp [JsDate.jsLeB, JsDate.timeValue]

theorem mmStep_inv (hostParse : JsStr → JsDate) (S : List JsValue)
    (st : Option JsDate × Option JsDate) (v : JsValue) (h : MMInv hostParse S st) :
    MMInv hostParse (S ++ [v]) (DateUtils.mmStep hostParse st v) := by
  obtain ⟨hIff, hMin, hMax, hOrd⟩ := h
  have hweak : ∀ (x : JsDate), (∃ w ∈ S, DateUtils.parseDate hostParse w = x) →
      ∃ w ∈ S ++ [v], DateUtils.parseDate hostParse w = x := by
    rintro x ⟨w, hw, hpw⟩
    exact ⟨w, by simp [hw], hpw⟩
  have mkInv : ∀ (nmn nmx : JsDate),
      (∃ w ∈ S ++ [v], DateUtils.parseDate hostParse w = nmn) →
      (∃ w ∈ S ++ [v], DateUtils.parseDate hostParse w = nmx) →
      nmn ≠ JsDate.invalid → nmx ≠ JsDate.invalid → nmn.jsLeB nmx = true →
      MMInv hostParse (S ++ [v]) (some nmn, some nmx) := by
    intro nmn nmx h1 h2 h3 h4 h5
    refine ⟨by simp, ?_, ?_, ?_⟩
    · intro a ha
      simp only [Option.some.injEq] at ha
      exact ha ▸ ⟨h1, h3⟩
    · intro b hb
      simp only [Option.some.injEq] at hb
      exact hb ▸ ⟨h2, h4⟩
    · intro a b ha hb
      simp only [Option.some.injEq] at ha hb
      exact ha ▸ hb ▸ h5
  unfold DateUtils.mmStep
  rcases st with ⟨s1, s2⟩
  cases hpv : DateUtils.parseDate hostParse v with
  | invalid =>
      exact ⟨hIff, fun a ha => ⟨hweak a (hMin a ha).1, (hMin a ha).2⟩,
        fun b hb => ⟨hweak b (hMax b hb).1, (hMax b hb).2⟩, hOrd⟩
  | valid ee mm =>
      have hvmem : ∃ w ∈ S ++ [v], DateUtils.parseDate hostParse w = JsDate.valid ee mm :=
        ⟨v, by simp, hpv⟩
      cases s1 with
      | none =>
          have h2 : s2 = none := hIff.mp rfl
          subst h2
          exact mkInv _ _ hvmem hvmem (by simp) (by simp) ((jsLeB_valid _ _ _ _).mpr le_rfl)
      | some mn =>
          cases s2 with
          | none => exact absurd (hIff.mpr rfl) (by simp)
          | some mx =>
              obtain ⟨hmnS, hmnV⟩ := hMin mn rfl
              obtain ⟨hmxS, hmxV⟩ := hMax mx rfl
              obtain ⟨emn, msmn, rfl⟩ : ∃ x y, mn = JsDate.valid x y := by
                cases mn with
                | invalid => exact absurd rfl hmnV
                | valid x y => exact ⟨x, y, rfl⟩
              obtain ⟨emx, msmx, rfl⟩ : ∃ x y, mx = JsDate.valid x y := by
                cases mx with
                | invalid => exact absurd rfl hmxV
                | valid x y => exact ⟨x, y, rfl⟩
              have hord := (jsLeB_valid _ _ _ _).mp (hOrd _ _ rfl rfl)
              dsimp only
              by_cases hlt : (JsDate.valid ee mm).jsLtB (JsDate.valid emn msmn) = true <;>
                by_cases hgt : (JsDate.valid emx msmx).jsLtB (JsDate.valid ee mm) = true
              · rw [if_pos hlt, if_pos hgt]
                exact mkInv _ _ hvmem hvmem (by simp) (by simp)
                  ((jsLeB_valid _ _ _ _).mpr le_rfl)
              · rw [if_pos hlt, if_neg hgt]
                simp only [JsDate.jsLtB, JsDate.timeValue, decide_eq_true_eq] at hlt hgt
                exact mkInv _ _ hvmem (hweak _ hmxS) (by simp) (by simp)
                  ((jsLeB_valid _ _ _ _).mpr (by omega))
              · rw [if_neg hlt, if_pos hgt]
                simp only [JsDate.jsLtB, JsDate.timeValue, decide_eq_true_eq] at hlt hgt
                exact mkInv _ _ (hweak _ hmnS) hvmem (by simp) (by simp)
                  ((jsLeB_valid _ _ _ _).mpr (by omega))
              · rw [if_neg hlt, if_neg hgt]
                exact mkInv _ _ (hweak _ hmnS) (hweak _ hmxS) (by simp) (by simp)
                  ((jsLeB_valid _ _ _ _).mpr hord)

theorem mmFoldl_inv (hostParse : JsStr → JsDate) :
    ∀ (arr S : List JsValue) (st : Option JsDate × Option JsDate),
      MMInv hostParse S st →
      MMInv hostParse (S ++ arr) (arr.foldl (DateUtils.mmStep hostParse) st) := by
  intro arr
  induction arr with
  | nil => intro S st h; simpa using h
  | cons a l ih =>
      intro S st h
      simp only [List.foldl_cons]
      have h1 := mmStep_inv hostParse S st a h
      have h2 := ih (S ++ [a]) _ h1
      simpa [List.append_assoc] using h2

theorem findMinMaxDates_inv (hostParse : JsStr → JsDate) (arr : List JsValue) :
    MMInv hostParse arr (DateUtils.findMinMaxDates hostParse arr) := by
  unfold DateUtils.findMinMaxDates
  by_cases he : arr.isEmpty
  · simp only [he, if_true]
    exact ⟨Iff.rfl, by simp, by simp, by simp⟩
  · simp only [he, if_false]
    have h0 : MMInv hostParse [] (none, none) := ⟨Iff.rfl, by simp, by simp, by simp⟩
    simpa using mmFoldl_inv hostParse arr [] (none, none) h0

/-- C10: in `findMinMaxDates`, minDate is null exactly when maxDate is null;
when both are present, min <= max and each equals the parsed value of some
element of the input array (no date outside the parsed inputs is fabricated);
an empty or all-invalid array yields both bounds null. -/
theorem c10_theorem (hostParse : JsStr → JsDate) (arr : List JsValue) :
    ((DateUtils.findMinMaxDates hostParse arr).1 = none ↔
      (DateUtils.findMinMaxDates hostParse arr).2 = none) ∧
    (∀ a b, (DateUtils.findMinMaxDates hostParse arr).1 = some a →
      (DateUtils.findMinMaxDates hostParse arr).2 = some b →
        a.jsLeB b = true ∧ (∃ v ∈ arr, DateUtils.parseDate hostParse v = a) ∧
          (∃ v ∈ arr, DateUtils.parseDate hostParse v = b)) ∧
    ((∀ v ∈ arr, DateUtils.parseDate hostParse v = JsDate.invalid) →
      DateUtils.findMinMaxDates hostParse arr = (none, none)) := by
  obtain ⟨hIff, hMin, hMax, hOrd⟩ := findMinMaxDates_inv hostParse arr
  refine ⟨hIff, ?_, ?_⟩
  · intro a b ha hb
    exact ⟨hOrd a b ha hb, (hMin a ha).1, (hMax b hb).1⟩
  · intro hall
    have h1 : (DateUtils.findMinMaxDates hostParse arr).1 = none := by
      cases hm : (DateUtils.findMinMaxDates hostParse arr).1 with
      | none => rfl
      | some a =>
          obtain ⟨⟨v, hv, hpv⟩, hne⟩ := hMin a hm
          exact absurd (hpv.symm.trans (hall v hv)) hne
    have h2 := hIff.mp h1
    exact Prod.ext h1 h2

/-- C10 (witness): a concrete scan over two parseable dates and one garbage
string, instantiating the theorem at that array. -/
theorem c10_witness :
    (DateUtils.findMinMaxDates (fun _ => JsDate.invalid)
        [.str ("2024-03-15").toList, .str ("zzz").toList, .str ("2023-01-02").toList]).1 =
      some (.valid (Calendar.daysFromCivil 2023 1 2) 0) ∧
    (DateUtils.findMinMaxDates (fun _ => JsDate.invalid)
        [.str ("2024-03-15").toList, .str ("zzz").toList, .str ("2023-01-02").toList]).2 =
      some (.valid (Calendar.daysFromCivil 2024 3 15) 0) ∧
    JsDate.jsLeB (.valid (Calendar.daysFromCivil 2023 1 2) 0)
        (.valid (Calendar.daysFromCivil 2024 3 15) 0) = true ∧
    (∃ v ∈ [JsValue.str ("2024-03-15").toList, JsValue.str ("zzz").toList,
        JsValue.str ("2023-01-02").toList],
      DateUtils.parseDate (fun _ => JsDate.invalid) v =
        JsDate.valid (Calendar.daysFromCivil 2023 1 2) 0) := by
  refine ⟨by decide, by decide, ?_, ?_⟩
  · exact ((c10_theorem (fun _ => JsDate.invalid)
      [.str ("2024-03-15").toList, .str ("zzz").toList, .str ("2023-01-02").toList]).2.1
      (.valid (Calendar.daysFromCivil 2023 1 2) 0)
      (.valid (Calendar.daysFromCivil 2024 3 15) 0) (by decide) (by decide)).1
  · exact ((c10_theorem (fun _ => JsDate.invalid)
      [.str ("2024-03-15").toList, .str ("zzz").toList, .str ("2023-01-02").toList]).2.1
      (.valid (Calendar.daysFromCivil 2023 1 2) 0)
      (.valid (Calendar.daysFromCivil 2024 3 15) 0) (by decide) (by decide)).2.1

/-! ## part_009 — FilterService (target parsing, serialization, apply/clear) -/

/-- JS `a || b` on strings (empty string is falsy). -/
def jsOr (a b : JsStr) : JsStr :=
  if a.isEmpty then b else a

/-- JS `String.prototype.split(sep)` for a one-character separator. -/
def splitOnChar (sep : Char) : JsStr → List JsStr
  | [] => [[]]
  | c :: rest =>
      match splitOnChar sep rest with
      | [] => [[]]
      | h :: t => if c = sep then [] :: h :: t else (c :: h) :: t

/-- Split a string at its last `[`, when one exists. -/
def splitLastBracket : JsStr → Option (JsStr × JsStr)
  | [] => none
  | c :: rest =>
      match splitLastBracket rest with
      | some (l, r) => some (c :: l, r)
      | none => if c = '[' then some ([], rest) else none

/-- The anchored regex `^(.+)\[(.+)\]$` with its greedy first group: the
string must end in `]`, the first group runs to the last `[` of the rest, and
both groups must be nonempty. -/
def bracketMatch (s : JsStr) : Option (JsStr × JsStr) :=
  match s.getLast? with
  | some ']' =>
      match splitLastBracket s.dropLast with
      | some (t, c) => if t.isEmpty || c.isEmpty then none else some (t, c)
      | none => none
  | _ => none

/-- A filter target (`{table, column}`). -/
structure FilterTarget where
  table : JsStr
  column : JsStr
deriving DecidableEq

/-- One condition of an advanced filter. -/
structure AdvancedFilterCondition where
  operator : JsStr
  value : JsStr
deriving DecidableEq

/-- The advanced filter descriptor handed to the host (the constant `$schema`
field is not modelled). -/
structure AdvancedFilter where
  target : FilterTarget
  logicalOperator : JsStr
  conditions : List AdvancedFilterCondition
deriving DecidableEq

/-- `IDateColumnInfo` of the current visual. -/
structure IDateColumnInfo where
  displayName : JsStr
  queryName : JsStr
  minDate : Option JsDate
  maxDate : Option JsDate
deriving DecidableEq

/-- The per-instance state of the FilterService (`setDateColumn` writes it). -/
structure FilterServiceState where
  dateColumn : Option IDateColumnInfo
deriving DecidableEq

/-- One `applyJsonFilter` invocation on the host. -/
structure HostCall where
  filter : Option AdvancedFilter
  scope : JsStr
  propertyName : JsStr
  action : Int
deriving DecidableEq

/-- A user-facing message (shown via the message service). -/
inductive Message
  | success (text : JsStr)
  | error (text : JsStr)
deriving DecidableEq

/-- Whether a message is a success message. -/
def Message.isSuccess : Message → Bool
  | .success _ => true
  | .error _ => false

/-- The observable outcome of a filter operation: the host calls made, in
order, and the messages shown. -/
structure FilterOutcome where
  hostCalls : List HostCall
  messages : List Message
deriving DecidableEq

namespace FilterService

/-- `getTargetFromQueryName(qn, displayName)`. -/
def getTargetFromQueryName (qn displayName : JsStr) : FilterTarget :=
  if qn.isEmpty then
    { table := ("Table").toList, column := jsOr displayName (("Date").toList) }
  else if qn.contains '.' then
    { table := ((splitOnChar '.' qn).get? 0).getD [],
      column := jsOr (((splitOnChar '.' qn).get? 1).getD [])
        (jsOr displayName (("Date").toList)) }
  else
    match bracketMatch qn with
    | some (t, c) => { table := t, column := c }
    | none => { table := ("Table").toList, column := jsOr displayName qn }

/-- The local `y-mm-dd` prefix both branches of `formatDateForDirectQuery`
interpolate (an Invalid Date renders its NaN fields). -/
def ymdChars (date : JsDate) : JsStr :=
  match date with
  | .invalid => ("NaN-NaN-NaN").toList
  | .valid e ms =>
      intToChars (JsDate.valid e ms).getFullYear ++
        '-' :: (padStart (intToChars ((JsDate.valid e ms).getMonth + 1)) 2 '0' ++
          '-' :: padStart (intToChars (JsDate.valid e ms).getDate) 2 '0')

/-- `formatDateForDirectQuery(date, isStart)`: local civil day with a fixed
day-start or day-end time component and no timezone suffix. -/
def formatDateForDirectQuery (date : JsDate) (isStart : Bool) : JsStr :=
  ymdChars date ++ (if isStart then ("T00:00:00.000").toList else ("T23:59:59.999").toList)

/-- `createAdvancedFilter(dateRange)`. -/
def createAdvancedFilter (fs : FilterServiceState) (dateRange : DRange) :
    Option AdvancedFilter :=
  match fs.dateColumn with
  | none => none
  | some col =>
      some { target := getTargetFromQueryName col.queryName col.displayName,
             logicalOperator := ("And").toList,
             conditions := [
               { operator := ("GreaterThanOrEqual").toList,
                 value := formatDateForDirectQuery dateRange.startDate true },
               { operator := ("LessThanOrEqual").toList,
                 value := formatDateForDirectQuery dateRange.endDate false }] }

/-- `applyFilter(dateRange)`: guard on the bound column, build the filter,
and make the single `applyJsonFilter(filter, "general", "filter", merge)`
call, converting a host throw into an error message.  (Message texts with
punctuation stripped where irrelevant.) -/
def applyFilter (fs : FilterServiceState) (dateRange : DRange)
    (host : HostCall → Except JsStr Unit) : FilterOutcome :=
  match fs.dateColumn with
  | none =>
      { hostCalls := [],
        messages := [.error (("Unable to apply filter - add a date field").toList)] }
  | some _ =>
      match createAdvancedFilter fs dateRange with
      | none => { hostCalls := [], messages := [.error (("Filter could not be built").toList)] }
      | some filter =>
          let call : HostCall :=
            { filter := some filter, scope := ("general").toList,
              propertyName := ("filter").toList, action := 0 }
          match host call with
          | Except.ok _ =>
              { hostCalls := [call],
                messages := [.success (("Filter applied successfully!").toList)] }
          | Except.error _ =>
              { hostCalls := [call], messages := [.error (("Error applying filter.").toList)] }

/-- `clearFilter()` of the current visual: one removal call on the general
scope, with a host throw converted into an error message. -/
def clearFilter (host : HostCall → Except JsStr Unit) : FilterOutcome :=
  let call : HostCall :=
    { filter := none, scope := ("general").toList,
      propertyName := ("filter").toList, action := 1 }
  match host call with
  | Except.ok _ =>
      { hostCalls := [call],
        messages := [.success (("All filters cleared - showing full data").toList)] }
  | Except.error _ =>
      { hostCalls := [call], messages := [.error (("Error clearing filters.").toList)] }

end FilterService

/-! ## Claims C4, C5, C6 and the FilterService half of C3 -/

/-- C4: for every date range and every bound column, the constructed filter
descriptor has exactly two conditions — GreaterThanOrEqual applied to the
serialized start date and LessThanOrEqual applied to the serialized end date
— combined with the logical operator And, and a `{table, column}` target
parsed from the column's qualified name. -/
theorem c4_theorem (col : IDateColumnInfo) (dateRange : DRange) :
    ∃ f, FilterService.createAdvancedFilter { dateColumn := some col } dateRange = some f ∧
      f.conditions.length = 2 ∧
      f.conditions.map (fun c => c.operator) =
        [("GreaterThanOrEqual").toList, ("LessThanOrEqual").toList] ∧
      f.conditions.map (fun c => c.value) =
        [FilterService.formatDateForDirectQuery dateRange.startDate true,
         FilterService.formatDateForDirectQuery dateRange.endDate false] ∧
      f.logicalOperator = ("And").toList ∧
      f.target = FilterService.getTargetFromQueryName col.queryName col.displayName :=
  ⟨_, rfl, rfl, rfl, rfl, rfl, rfl⟩

/-- C5: the qualified-reference parser maps `Sales.OrderDate` and the bracket
form `Sales[OrderDate]` to `{table: Sales, column: OrderDate}` for any
display name, maps the unparsable reference `OrderDate` (with no display
name) to the default table label with `OrderDate` as the column, and degrades
empty input to the placeholder names; being a total function, it never
throws. -/
theorem c5_theorem :
    (∀ d : JsStr, FilterService.getTargetFromQueryName (("Sales.OrderDate").toList) d =
      { table := ("Sales").toList, column := ("OrderDate").toList }) ∧
    (∀ d : JsStr, FilterService.getTargetFromQueryName (("Sales[OrderDate]").toList) d =
      { table := ("Sales").toList, column := ("OrderDate").toList }) ∧
    FilterService.getTargetFromQueryName (("OrderDate").toList) [] =
      { table := ("Table").toList, column := ("OrderDate").toList } ∧
    FilterService.getTargetFromQueryName [] [] =
      { table := ("Table").toList, column := ("Date").toList } :=
  ⟨fun _ => rfl, fun _ => rfl, by decide, by decide⟩

/-- C6: with no bound date column, `applyFilter` shows the no-column error
message and makes no host call at all, for every date range and every host
behavior. -/
theorem c6_theorem (dateRange : DRange) (host : HostCall → Except JsStr Unit) :
    FilterService.applyFilter { dateColumn := none } dateRange host =
      { hostCalls := [],
        messages := [.error (("Unable to apply filter - add a date field").toList)] } :=
  rfl

theorem formatDateForDirectQuery_getLast (date : JsDate) :
    (FilterService.formatDateForDirectQuery date true).getLast? = some '0' ∧
      (FilterService.formatDateForDirectQuery date false).getLast? = some '9' := by
  unfold FilterService.formatDateForDirectQuery
  constructor <;>
    rw [List.getLast?_append_of_ne_nil _ (by decide)] <;> decide

/-- C3 (amended): every descriptor built by the current visual's
FilterService serializes both bounds as local civil strings: the start value
is the civil day followed by exactly `T00:00:00.000`, the end value the civil
day followed by exactly `T23:59:59.999`, and neither ends in the UTC marker
`Z`.  The FilterManager variant instead serializes with `toISOString()`,
whose values end in `Z` — see the counterexample. -/
theorem c3_amended_theorem (col : IDateColumnInfo) (dateRange : DRange) :
    ∃ f, FilterService.createAdvancedFilter { dateColumn := some col } dateRange = some f ∧
      f.conditions.map (fun c => c.value) =
        [FilterService.ymdChars dateRange.startDate ++ ("T00:00:00.000").toList,
         FilterService.ymdChars dateRange.endDate ++ ("T23:59:59.999").toList] ∧
      ∀ c ∈ f.conditions, c.value.getLast? ≠ some 'Z' := by
  refine ⟨_, rfl, rfl, ?_⟩
  intro c hc
  simp only [FilterService.createAdvancedFilter, List.mem_cons, List.not_mem_nil,
    or_false] at hc
  rcases hc with rfl | rfl
  · rw [(formatDateForDirectQuery_getLast dateRange.startDate).1]
    decide
  · rw [(formatDateForDirectQuery_getLast dateRange.endDate).2]
    decide

/-! ## part_004 — FilterManager (legacy SOLID variant) -/

/-- JS `toISOString()` under the fixed offset-0 model of this embedding: UTC
civil rendering with a 4-digit zero-padded year and a trailing `Z`.  (On an
Invalid Date the real method throws; that case is unreachable here.) -/
def JsDate.toISOString (d : JsDate) : JsStr :=
  match d with
  | .invalid => []
  | .valid e ms =>
      padStart (intToChars (Calendar.civilFromDays e).1) 4 '0' ++ '-' ::
        (padStart (intToChars (Calendar.civilFromDays e).2.1) 2 '0' ++ '-' ::
          (padStart (intToChars (Calendar.civilFromDays e).2.2) 2 '0' ++ 'T' ::
            (padStart (intToChars (ms / 3600000)) 2 '0' ++ ':' ::
              (padStart (intToChars (ms % 3600000 / 60000)) 2 '0' ++ ':' ::
                (padStart (intToChars (ms % 60000 / 1000)) 2 '0' ++ '.' ::
                  (padStart (intToChars (ms % 1000)) 3 '0' ++ ['Z']))))))

/-- The `expr.source` object of a column expression. -/
structure SQExprSource where
  entity : JsStr
deriving DecidableEq

/-- The opaque column expression; only its optional `source.entity` is read. -/
structure SQExpr where
  source : Option SQExprSource
deriving DecidableEq

/-- A metadata column as the FilterManager reads it (`type && type.dateTime`
collapsed into one flag). -/
structure FMMetaColumn where
  displayName : JsStr
  type_dateTime : Bool
  expr : Option SQExpr
deriving DecidableEq

/-- The FilterManager's per-instance fields, all initially null. -/
structure FilterManagerState where
  dateColumnTarget : Option SQExpr
  dateColumnName : Option JsStr
  tableQualifiedName : Option JsStr
deriving DecidableEq

/-- JS truthiness of a nullable string field. -/
def jsStrOptTruthy (o : Option JsStr) : Bool :=
  match o with
  | none => false
  | some s => !s.isEmpty

namespace FilterManager

/-- `hasDateColumn(dataView)`: find the first dateTime-typed metadata column;
when found (and carrying an `expr`) overwrite the target fields — but
`tableQualifiedName` only when `expr.source` exists — and return true;
otherwise return false LEAVING ALL FIELDS UNCHANGED.  `none` for the columns
models a missing dataView/metadata/columns chain. -/
def hasDateColumn (st : FilterManagerState) (columns : Option (List FMMetaColumn)) :
    FilterManagerState × Bool :=
  match columns with
  | none => (st, false)
  | some cols =>
      match cols.find? (fun c => c.type_dateTime) with
      | some c =>
          match c.expr with
          | some ex =>
              ({ dateColumnTarget := some ex,
                 dateColumnName := some (jsOr c.displayName (("Date").toList)),
                 tableQualifiedName :=
                   match ex.source with
                   | some src => some (jsOr src.entity (("Table").toList))
                   | none => st.tableQualifiedName }, true)
          | none => (st, false)
      | none => (st, false)

/-- The FilterManager's private `isValidDateRange`: the null and
`instanceof Date` checks are vacuous in the typed embedding; the comparison
is JS `<=` on time values. -/
def isValidDateRange (dateRange : DRange) : Bool :=
  dateRange.startDate.jsLeB dateRange.endDate

/-- `applyDateFilter(dateRange, host)`: guard on the stored target fields and
range validity (each failure only logs), then build the advanced filter with
`toISOString()` values and apply it with the merge action.  A host throw is
caught and only logged, so the outcome records the attempted call. -/
def applyDateFilter (st : FilterManagerState) (dateRange : DRange) : FilterOutcome :=
  if !(st.dateColumnTarget.isSome && jsStrOptTruthy st.dateColumnName &&
      jsStrOptTruthy st.tableQualifiedName) then
    { hostCalls := [], messages := [] }
  else if !isValidDateRange dateRange then
    { hostCalls := [], messages := [] }
  else
    { hostCalls := [{
        filter := some {
          target := { table := st.tableQualifiedName.getD [],
                      column := st.dateColumnName.getD [] },
          logicalOperator := ("And").toList,
          conditions := [
            { operator := ("GreaterThanOrEqual").toList,
              value := dateRange.startDate.toISOString },
            { operator := ("LessThanOrEqual").toList,
              value := dateRange.endDate.toISOString }] },
        scope := ("general").toList, propertyName := ("filter").toList, action := 0 }],
      messages := [] }

end FilterManager

/-- C3 (counterexample): the FilterManager's `applyDateFilter` serializes the
very same normalized range with `toISOString()`: both condition values carry
the trailing UTC marker `Z`, violating the claimed no-Z serialization for the
descriptor this path hands to the host. -/
theorem c3_counterexample :
    (FilterManager.applyDateFilter
        { dateColumnTarget := some { source := some { entity := ("Sales").toList } },
          dateColumnName := some (("OrderDate").toList),
          tableQualifiedName := some (("Sales").toList) }
        { startDate := .valid (Calendar.daysFromCivil 2024 12 24) 0,
          endDate := .valid (Calendar.daysFromCivil 2024 12 31) 86399999 }).hostCalls.map
      (fun hc => hc.filter.map (fun f => f.conditions.map (fun c => c.value))) =
      [some [("2024-12-24T00:00:00.000Z").toList, ("2024-12-31T23:59:59.999Z").toList]] := by
  decide

/-! ## part_008 — the earlier FilterService: multi-path clearFilter -/

/-- The host capabilities `clearFilter` probes in the part_008 variant: a
filter-manager `clear`, the generic `applyJsonFilter` (modelled as a function
of the scope), and a selection manager whose `clear` may be absent.  Each
present capability carries the result of calling it (`Except.error` models a
throw). -/
structure Host8 where
  filterManager_clear : Option (Except JsStr Unit)
  applyJsonFilter : Option (JsStr → Except JsStr Unit)
  selectionManager_clear : Option (Option (Except JsStr Unit))

/-- One capability invocation made by the part_008 `clearFilter`. -/
inductive ClearCall
  | fmClear
  | json (scope : JsStr)
  | smClear
deriving DecidableEq

/-- The outcome of the part_008 `clearFilter`: the capability calls made, in
order, and the single message shown. -/
structure ClearOutcome where
  calls : List ClearCall
  message : Message
deriving DecidableEq

namespace FilterService8

/-- Shared final step of `clearFilter`: report success iff some clearing path
ran to completion ( `filterCleared` ), else the no-API error. -/
def clearFinish (cleared : Bool) (calls : List ClearCall) : ClearOutcome :=
  if cleared then
    { calls := calls, message := .success (("All filters cleared - showing full data").toList) }
  else
    { calls := calls, message := .error (("Unable to clear filters - API not available").toList) }

/-- Method 3 of `clearFilter` (selection-manager clear), then the final
report.  A throw falls to the shared catch block. -/
def clearMethod3 (host : Host8) (cleared : Bool) (calls : List ClearCall) : ClearOutcome :=
  match host.selectionManager_clear with
  | some (some (Except.error e)) =>
      { calls := calls ++ [.smClear],
        message := .error (("Error clearing filters: ").toList ++ e) }
  | some (some (Except.ok _)) => clearFinish cleared (calls ++ [.smClear])
  | some none => clearFinish cleared calls
  | none => clearFinish cleared calls

/-- Method 2 of `clearFilter` (`applyJsonFilter(null, ...)` on the general
scope and then the advanced scope, under the same try block).  A throw in
either call jumps to the shared catch, so an advanced-scope throw aborts even
after the general scope succeeded. -/
def clearMethod2 (host : Host8) (cleared : Bool) (calls : List ClearCall) : ClearOutcome :=
  match host.applyJsonFilter with
  | some f =>
      match f (("general").toList) with
      | Except.error e =>
          { calls := calls ++ [.json (("general").toList)],
            message := .error (("Error clearing filters: ").toList ++ e) }
      | Except.ok _ =>
          match f (("advanced").toList) with
          | Except.error e =>
              { calls := calls ++ [.json (("general").toList), .json (("advanced").toList)],
                message := .error (("Error clearing filters: ").toList ++ e) }
          | Except.ok _ =>
              clearMethod3 host true
                (calls ++ [.json (("general").toList), .json (("advanced").toList)])
  | none => clearMethod3 host cleared calls

/-- `clearFilter()` of the part_008 variant: methods 1..3 run sequentially
inside ONE try/catch; a throw anywhere surfaces the catch's error message. -/
def clearFilter (host : Host8) : ClearOutcome :=
  match host.filterManager_clear with
  | some (Except.error e) =>
      { calls := [.fmClear], message := .error (("Error clearing filters: ").toList ++ e) }
  | some (Except.ok _) => clearMethod2 host true [.fmClear]
  | none => clearMethod2 host false []

end FilterService8

/-- A host whose present capabilities all succeed, with presence selected by
three flags. -/
def mkOkHost (fm ajf sm : Bool) : Host8 :=
  { filterManager_clear := if fm then some (Except.ok ()) else none,
    applyJsonFilter := if ajf then some (fun _ => Except.ok ()) else none,
    selectionManager_clear := if sm then some (some (Except.ok ())) else none }

/-- C7 (counterexample): with only the generic JSON-filter capability present
and the advanced-scope call throwing after the general-scope call succeeded,
`clearFilter` surfaces the catch's blocking error message — not success, as
the claim requires when at least one path succeeded. -/
theorem c7_counterexample :
    (FilterService8.clearFilter
        { filterManager_clear := none,
          applyJsonFilter := some (fun scope =>
            if scope = ("advanced").toList then Except.error (("boom").toList)
            else Except.ok ()),
          selectionManager_clear := none }).calls =
      [.json (("general").toList), .json (("advanced").toList)] ∧
    (FilterService8.clearFilter
        { filterManager_clear := none,
          applyJsonFilter := some (fun scope =>
            if scope = ("advanced").toList then Except.error (("boom").toList)
            else Except.ok ()),
          selectionManager_clear := none }).message =
      Message.error (("Error clearing filters: boom").toList) := by
  decide

/-- C7 (amended): clearing is best-effort only across ABSENT capabilities:
when no invoked capability throws, the result is success exactly when the
filter-manager clear or the JSON-filter capability is present (a missing
capability on one path never blocks the other).  But the paths share a single
try/catch, so a throwing path aborts the remainder and surfaces a blocking
error even when an earlier path succeeded — see the counterexample. -/
theorem c7_amended_theorem :
    ∀ fm ajf sm : Bool,
      (FilterService8.clearFilter (mkOkHost fm ajf sm)).message.isSuccess = (fm || ajf) := by
  decide

/-! ## part_009 — DateTimePickerVisual.updateDataColumnInfo -/

/-- The `source` descriptor of a categorical column (role and type flags
collapse the `roles && roles[..]` / `type && type[..]` chains). -/
structure CatSource where
  displayName : JsStr
  queryName : JsStr
  roles_date : Bool
  roles_category : Bool
  type_dateTime : Bool
  type_date : Bool
deriving DecidableEq

/-- One categorical column with its (possibly absent) sampled values. -/
structure Category where
  source : CatSource
  values : Option (List JsValue)
deriving DecidableEq

/-- A metadata column descriptor. -/
structure MetaColumn9 where
  displayName : JsStr
  queryName : JsStr
  roles_date : Bool
  roles_category : Bool
  type_dateTime : Bool
  type_date : Bool
deriving DecidableEq

/-- The slice of `dataViews[0]` the visual reads. -/
structure DataView9 where
  categorical_categories : Option (List Category)
  metadata_columns : Option (List MetaColumn9)
  table_rows : Option (List (List JsValue))
deriving DecidableEq

namespace DateTimePickerVisual

/-- The predicate of `cats.find(...)`: date/category role or date type. -/
def catPick (c : Category) : Bool :=
  (c.source.roles_date || c.source.roles_category) ||
    (c.source.type_dateTime || c.source.type_date)

/-- First predicate of `pickMetaDateCol`: date/category role AND date type. -/
def metaRolePick (c : MetaColumn9) : Bool :=
  (c.roles_date || c.roles_category) && (c.type_dateTime || c.type_date)

/-- Second predicate of `pickMetaDateCol`: date type alone. -/
def metaTypePick (c : MetaColumn9) : Bool :=
  c.type_dateTime || c.type_date

/-- `pickMetaDateCol` as the index of the chosen metadata column
(`metaCols.indexOf(metaDate)` in the source). -/
def pickMetaDateIdx (cols : List MetaColumn9) : Option Nat :=
  match cols.findIdx? metaRolePick with
  | some i => some i
  | none => cols.findIdx? metaTypePick

/-- `updateDataColumnInfo(options)`: rebuild the `dateColumn` binding wholesale
from the update payload.  A nonempty categorical list binds a category (the
first matching one, else `cats[0]`); otherwise a date-typed metadata column is
searched, with min/max scanned from the table rows; otherwise the binding is
null.  Absent min/max fall back to 1900-01-01 and Dec 31 ten years after the
current year. -/
def updateDataColumnInfo (hostParse : JsStr → JsDate) (dv : Option DataView9)
    (now : JsDate) : Option IDateColumnInfo :=
  let metaCols := (dv.bind (fun v => v.metadata_columns)).getD []
  match dv.bind (fun v => v.categorical_categories) with
  | some (c0 :: rest) =>
      let cat := (((c0 :: rest).find? catPick).getD c0)
      let mm := DateUtils.findMinMaxDates hostParse (cat.values.getD [])
      some { displayName := jsOr cat.source.displayName (("Date").toList),
             queryName := jsOr cat.source.queryName [],
             minDate := some (mm.1.getD (JsDate.jsNewDate 1900 0 1)),
             maxDate := some (mm.2.getD (JsDate.jsNewDate (now.getFullYear + 10) 11 31)) }
  | _ =>
      match pickMetaDateIdx metaCols with
      | some i =>
          let metaDate := (metaCols.get? i).getD
            { displayName := [], queryName := [], roles_date := false,
              roles_category := false, type_dateTime := false, type_date := false }
          let mm :=
            match dv.bind (fun v => v.table_rows) with
            | some rows =>
                if !metaCols.isEmpty then
                  DateUtils.findMinMaxDates hostParse
                    (rows.map (fun (r : List JsValue) => (r.get? i).getD JsValue.undef))
                else (none, none)
            | none => (none, none)
          some { displayName := jsOr metaDate.displayName (("Date").toList),
                 queryName := jsOr metaDate.queryName [],
                 minDate := some (mm.1.getD (JsDate.jsNewDate 1900 0 1)),
                 maxDate := some (mm.2.getD (JsDate.jsNewDate (now.getFullYear + 10) 11 31)) }
      | none => none

end DateTimePickerVisual

/-- C8 (amended): the current visual rebuilds the binding wholesale on every
update; when the update carries no categorical column at all and no
date-typed metadata column, the binding becomes null and a subsequent apply
makes no host call.  (A categorical column of ANY type is treated as bound,
and the FilterManager variant does not invalidate at all: when
`hasDateColumn` finds no date column it leaves the previously captured
target in place and a subsequent `applyDateFilter` reuses the stale
table/column reference — see the counterexample.) -/
theorem c8_amended_theorem (hostParse : JsStr → JsDate) (dv : Option DataView9) (now : JsDate)
    (hcat : dv.bind (fun v => v.categorical_categories) = none ∨
      dv.bind (fun v => v.categorical_categories) = some [])
    (hmeta : ∀ c ∈ (dv.bind (fun v => v.metadata_columns)).getD [],
      DateTimePickerVisual.metaTypePick c = false) :
    DateTimePickerVisual.updateDataColumnInfo hostParse dv now = none ∧
    ∀ (dateRange : DRange) (host : HostCall → Except JsStr Unit),
      (FilterService.applyFilter
          { dateColumn := DateTimePickerVisual.updateDataColumnInfo hostParse dv now }
          dateRange host).hostCalls = [] := by
  have hrole : ((dv.bind (fun v => v.metadata_columns)).getD []).findIdx?
      DateTimePickerVisual.metaRolePick = none := by
    rw [List.findIdx?_eq_none_iff]
    intro c hc
    have ht := hmeta c hc
    unfold DateTimePickerVisual.metaTypePick at ht
    unfold DateTimePickerVisual.metaRolePick
    rw [ht]
    simp
  have htyp : ((dv.bind (fun v => v.metadata_columns)).getD []).findIdx?
      DateTimePickerVisual.metaTypePick = none := by
    rw [List.findIdx?_eq_none_iff]
    exact hmeta
  have hidx : DateTimePickerVisual.pickMetaDateIdx
      ((dv.bind (fun v => v.metadata_columns)).getD []) = none := by
    unfold DateTimePickerVisual.pickMetaDateIdx
    rw [hrole, htyp]
  have hnone : DateTimePickerVisual.updateDataColumnInfo hostParse dv now = none := by
    unfold DateTimePickerVisual.updateDataColumnInfo
    rcases hcat with h | h <;> rw [h] <;> simp only [hidx]
  refine ⟨hnone, fun dateRange host => ?_⟩
  rw [hnone]
  rfl

/-- A non-date metadata column (a text column with the category role). -/
def regionMeta : MetaColumn9 :=
  { displayName := ("Region").toList, queryName := ("Geo.Region").toList,
    roles_date := false, roles_category := true, type_dateTime := false, type_date := false }

/-- An update payload carrying no categorical column and no date-typed
metadata column. -/
def noDateView : DataView9 :=
  { categorical_categories := none, metadata_columns := some [regionMeta],
    table_rows := none }

/-- C8 (witness): a payload with no categorical column and only a non-date
metadata column resets the binding, and apply on that state makes no host
call. -/
theorem c8_witness :
    DateTimePickerVisual.updateDataColumnInfo (fun _ => JsDate.invalid)
        (some noDateView) (.valid 20000 0) = none ∧
    (FilterService.applyFilter
        { dateColumn := DateTimePickerVisual.updateDataColumnInfo (fun _ => JsDate.invalid)
            (some noDateView) (.valid 20000 0) }
        { startDate := .valid 0 0, endDate := .valid 1 0 }
        (fun _ => Except.ok ())).hostCalls = [] :=
  ⟨(c8_amended_theorem (fun _ => JsDate.invalid) (some noDateView) (.valid 20000 0)
      (Or.inl rfl) (by decide)).1,
   (c8_amended_theorem (fun _ => JsDate.invalid) (some noDateView) (.valid 20000 0)
      (Or.inl rfl) (by decide)).2
     { startDate := .valid 0 0, endDate := .valid 1 0 } (fun _ => Except.ok ())⟩

/-- The dateTime-typed metadata column the first update carries. -/
def orderDateFMCol : FMMetaColumn :=
  { displayName := ("OrderDate").toList, type_dateTime := true,
    expr := some { source := some { entity := ("Sales").toList } } }

/-- The non-date metadata column the second update carries. -/
def regionFMCol : FMMetaColumn :=
  { displayName := ("Region").toList, type_dateTime := false, expr := none }

/-- The empty initial FilterManager state. -/
def fmInit : FilterManagerState :=
  { dateColumnTarget := none, dateColumnName := none, tableQualifiedName := none }

/-- C8 (counterexample): the FilterManager variant violates the claim: after
a first update binds Sales.OrderDate, a second update carrying no date-typed
column returns false from `hasDateColumn` WITHOUT resetting the stored
target, and a subsequent `applyDateFilter` issues a host call that reuses the
stale Sales/OrderDate reference. -/
theorem c8_counterexample :
    (FilterManager.hasDateColumn
        (FilterManager.hasDateColumn fmInit (some [orderDateFMCol])).1
        (some [regionFMCol])).2 = false ∧
    ((FilterManager.applyDateFilter
        (FilterManager.hasDateColumn
          (FilterManager.hasDateColumn fmInit (some [orderDateFMCol])).1
          (some [regionFMCol])).1
        { startDate := .valid 19000 0, endDate := .valid 19001 0 }).hostCalls.map
      (fun hc => hc.filter.map (fun f => f.target))) =
      [some { table := ("Sales").toList, column := ("OrderDate").toList }] := by
  decide
